import Mathlib

/-!
Verification of the event-planning assistant core (ai_engine.py, firebase_config.py,
app.py): field extraction from conversation text, menu selection, prompt composition,
fallback responses, and the demo catalog used when the document store is unreachable.

Text is modelled at the character level: a Python `str` is a Lean `String`, and the
substring / regex scanning that the extractor performs is carried out on `List Char`
(`String.data`).  Python's `str.lower` is modelled by `Char.toLower` (the inputs the
vocabularies are matched against are ASCII).  Machine floats (menu prices) are never
computed with by the code under verification - they are only interpolated into
strings - so prices are carried as their literal decimal strings.
-/

/-- Python's `sub in t` substring test on lower-cased text (ai_engine.py uses
`event_type in text_lower` etc.): true iff `sub` occurs contiguously in `t`. -/
def containsSub : List Char → List Char → Bool
  | [], sub => sub.isPrefixOf []
  | c :: rest, sub => sub.isPrefixOf (c :: rest) || containsSub rest sub

/-- The lower-cased character sequence of a string: `conversation_text.lower()`. -/
def textLowerOf (s : String) : List Char := s.data.map Char.toLower

/-- The regex character class `\s` as it applies to the chat text. -/
def isSpaceChar (c : Char) : Bool := c.isWhitespace

/-- `int(...)` applied to the digit group captured by a guest-count pattern. -/
def digitsVal (ds : List Char) : Nat := ds.foldl (fun n c => 10 * n + (c.toNat - 48)) 0

/-- `" ".join(messages)` from app.py line 166. -/
def joinSpace : List String → String
  | [] => ""
  | [m] => m
  | m :: ms => m ++ " " ++ joinSpace ms

/-- A menu item document (firebase_config.py mock data / Firestore `menuItems`).
The price is the literal decimal rendered into prompts (never computed with). -/
structure MenuItem where
  id : String
  name : String
  category : String
  ingredients : List String
  dietType : List String
  price : String
  imageURL : String
deriving DecidableEq

/-- One user/assistant exchange stored in `AIEventAssistant.conversation_history`
(the wall-clock timestamp also stored there never influences any computation and
is not modelled). -/
structure Exchange where
  user : String
  assistant : String
deriving DecidableEq

/-- The `event_details` dictionary built by `extract_event_details` and held in
`st.session_state.current_event_details`. -/
structure EventProfile where
  eventType : Option String
  guestCount : Option Nat
  theme : Option String
  dietaryPreferences : List String
  specialRequests : List String
  budget : Option Nat
  date : Option String
deriving DecidableEq

/-- ai_engine.py line 180: the fixed event-type vocabulary, in scan order. -/
def event_types : List String :=
  ["birthday", "anniversary", "wedding", "corporate", "party", "celebration", "dinner", "lunch"]

/-- ai_engine.py line 216: the fixed theme vocabulary, in scan order. -/
def theme_keywords : List String :=
  ["retro", "vintage", "modern", "rustic", "elegant", "casual", "formal", "themed"]

/-- ai_engine.py lines 201-209: canonical diet tag paired with its synonym keywords,
in dictionary (insertion) order. -/
def dietary_keywords : List (String × List String) :=
  [("vegan", ["vegan"]),
   ("vegetarian", ["vegetarian", "veggie"]),
   ("gluten-free", ["gluten-free", "gluten free", "celiac"]),
   ("dairy-free", ["dairy-free", "dairy free", "lactose"]),
   ("low-carb", ["low-carb", "low carb", "keto"]),
   ("halal", ["halal"]),
   ("kosher", ["kosher"])]

/-- Matching the regex `(\d+)\s*(?:w1|w2|...)` at a fixed position of the text:
a nonempty maximal digit run, optional whitespace, then one of the literal words.
(Backtracking over `\d+`/`\s*` cannot help here because no word starts with a digit
or a whitespace character, so maximal munch is exact.) -/
def matchWordAfter (words : List (List Char)) (s : List Char) : Option Nat :=
  if s.takeWhile Char.isDigit = [] then none
  else if words.any
      (fun w => w.isPrefixOf ((s.dropWhile Char.isDigit).dropWhile isSpaceChar)) then
    some (digitsVal (s.takeWhile Char.isDigit))
  else none

/-- Matching the regex `(?:kw1|kw2|...)\s*(\d+)` at a fixed position: one of the
literal keywords, optional whitespace, then a nonempty digit run.  The keywords
used (`for`, `around`, `about`) are pairwise non-prefixes of one another, so at
most one alternative can apply at a given position. -/
def matchNumAfterKw (kws : List (List Char)) (s : List Char) : Option Nat :=
  match kws.find? (fun kw => kw.isPrefixOf s) with
  | none => none
  | some kw =>
    if (((s.drop kw.length).dropWhile isSpaceChar).takeWhile Char.isDigit) = [] then none
    else some (digitsVal (((s.drop kw.length).dropWhile isSpaceChar).takeWhile Char.isDigit))

/-- `re.search`: scan start positions left to right and return the first position
where the pattern matches (with its captured integer). -/
def reSearch (m : List Char → Option Nat) : List Char → Option Nat
  | [] => m []
  | c :: rest =>
    match m (c :: rest) with
    | some n => some n
    | none => reSearch m rest

/-- ai_engine.py line 189: pattern `(\d+)\s*(?:people|guests|persons)`. -/
def matchPeople : List Char → Option Nat :=
  matchWordAfter ["people".data, "guests".data, "persons".data]

/-- ai_engine.py line 190: pattern `(?:for|around|about)\s*(\d+)`. -/
def matchForAroundAbout : List Char → Option Nat :=
  matchNumAfterKw ["for".data, "around".data, "about".data]

/-- ai_engine.py line 191: pattern `(\d+)\s*(?:pax|attendees)`. -/
def matchPax : List Char → Option Nat :=
  matchWordAfter ["pax".data, "attendees".data]

/-- ai_engine.py lines 194-198: try the three guest-count patterns in list order;
the first pattern with a match anywhere supplies the captured integer. -/
def extractGuestCount (textLower : List Char) : Option Nat :=
  match reSearch matchPeople textLower with
  | some n => some n
  | none =>
    match reSearch matchForAroundAbout textLower with
    | some n => some n
    | none => reSearch matchPax textLower

/-- ai_engine.py lines 181-184: first vocabulary term (in list order) occurring
anywhere in the lower-cased text. -/
def extractEventType (textLower : List Char) : Option String :=
  event_types.find? (fun t => containsSub textLower t.data)

/-- ai_engine.py lines 217-220: first theme keyword (in list order) occurring
anywhere in the lower-cased text. -/
def extractTheme (textLower : List Char) : Option String :=
  theme_keywords.find? (fun t => containsSub textLower t.data)

/-- ai_engine.py lines 211-213: every canonical diet tag one of whose synonym
keywords occurs in the lower-cased text, in dictionary order. -/
def extractDietaryPreferences (textLower : List Char) : List String :=
  (dietary_keywords.filter
    (fun p => p.2.any (fun kw => containsSub textLower kw.data))).map (fun p => p.1)

/-- `AIEventAssistant.extract_event_details` (ai_engine.py lines 156-222):
lower-case the conversation text and fill the event-details record; the
`specialRequests`, `budget` and `date` fields are initialised empty and never
assigned by the function body. -/
def extract_event_details (conversationText : String) : EventProfile :=
  let textLower := textLowerOf conversationText
  { eventType := extractEventType textLower
    guestCount := extractGuestCount textLower
    theme := extractTheme textLower
    dietaryPreferences := extractDietaryPreferences textLower
    specialRequests := []
    budget := none
    date := none }

example : (extract_event_details "for 20, about 15 people").guestCount = some 15 := by decide
example : extract_event_details "" = ⟨none, none, none, [], [], none, none⟩ := by decide
example : (extract_event_details "vegan vegetarian").dietaryPreferences = ["vegan", "vegetarian"] := by decide
example : (extract_event_details "Wedding then a Birthday, retro").eventType = some "birthday" := by decide

/-- ai_engine.py line 135: the `greeting` canned response. -/
def fallback_greeting : String :=
  "Hello! I'm your Event Planning Assistant! 🎉 I'd love to help you create an amazing event. What type of celebration are you planning?"

/-- ai_engine.py line 136: the `birthday` canned response. -/
def fallback_birthday : String :=
  "Birthday parties are my favorite! 🎂 For a memorable birthday celebration, consider:\n\n• **Theme Ideas**: Vintage Hollywood, Garden Party, or Decade-themed (80s, 90s)\n• **Decorations**: Balloon arches, string lights, personalized banners\n• **Menu**: I'd recommend a mix of appetizers, a signature main course, and a show-stopping dessert!\n\nHow many guests are you expecting?"

/-- ai_engine.py line 137: the `theme` canned response. -/
def fallback_theme : String :=
  "Great question about themes! Here are some popular options:\n\n🎭 **Elegant Themes**: Masquerade, Great Gatsby, Wine & Dine\n🌍 **Cultural Themes**: Mediterranean Night, Asian Fusion, Mexican Fiesta\n🎨 **Fun Themes**: Retro Diner, Garden to Table, Game Night\n\nWhat vibe are you going for - elegant, casual, or fun?"

/-- ai_engine.py line 138: the `menu` canned response. -/
def fallback_menu : String :=
  "For menu planning, I always start with dietary preferences! 🍽️\n\nLet me know if you need:\n• Vegetarian/Vegan options\n• Gluten-free selections\n• Kid-friendly choices\n• Specific cuisine types\n\nWhat dietary considerations should we keep in mind?"

/-- ai_engine.py line 139: the `default` canned response. -/
def fallback_default : String :=
  "I'm here to help you plan an amazing event! 🌟 I can assist with themes, decorations, menu selection, and seating arrangements. What aspect of your event would you like to focus on first?"

/-- `AIEventAssistant._get_fallback_response` (ai_engine.py lines 131-154):
lower-case the message and test the ordered keyword groups; the first group with
any keyword occurring as a substring wins, else the default response. -/
def _get_fallback_response (userMessage : String) : String :=
  let messageLower := textLowerOf userMessage
  if ["hello", "hi", "start", "help"].any (fun w => containsSub messageLower w.data) then
    fallback_greeting
  else if ["birthday", "bday"].any (fun w => containsSub messageLower w.data) then
    fallback_birthday
  else if ["theme", "decoration", "decor"].any (fun w => containsSub messageLower w.data) then
    fallback_theme
  else if ["menu", "food", "eat", "dietary"].any (fun w => containsSub messageLower w.data) then
    fallback_menu
  else
    fallback_default

/-- Python's `s[:n]` character slice (used on assistant replies at prompt build). -/
def strTake (s : String) (n : Nat) : String := String.mk (s.data.take n)

/-- `AIEventAssistant._build_enhanced_prompt` (ai_engine.py lines 103-129) as the
list `prompt_parts` it accumulates before joining.  `systemPrompt` stands for
`self.get_system_prompt()` (a fixed text whose content no claim depends on);
`jsonDumps` stands for the external `json.dumps` serializer; `context` is the
`context` dictionary as key/value pairs, empty meaning falsy (`None` or `{}`). -/
def _build_enhanced_prompt_parts (systemPrompt userMessage : String)
    (menuItems : List MenuItem) (context : List (String × String))
    (jsonDumps : List (String × String) → String)
    (conversationHistory : List Exchange) : List String :=
  [systemPrompt]
  ++ (if menuItems.isEmpty then [] else
      "\nAVAILABLE MENU ITEMS:" ::
      (menuItems.take 10).map (fun item =>
        "- " ++ item.name ++ " ($" ++ item.price ++ ") - " ++ item.category
          ++ " - Dietary: " ++ String.intercalate ", " item.dietType))
  ++ (if context.isEmpty then [] else ["\nCONTEXT: " ++ jsonDumps context])
  ++ (if conversationHistory.isEmpty then [] else
      "\nRECENT CONVERSATION:" ::
      (conversationHistory.drop (conversationHistory.length - 3)).flatMap (fun entry =>
        ["User: " ++ entry.user, "Assistant: " ++ strTake entry.assistant 200 ++ "..."]))
  ++ ["\nCURRENT USER MESSAGE: " ++ userMessage,
      "\nPlease provide a helpful, creative response as the Event Planning Assistant:"]

/-- The composed prompt: `"\n".join(prompt_parts)` (ai_engine.py line 129). -/
def _build_enhanced_prompt (systemPrompt userMessage : String)
    (menuItems : List MenuItem) (context : List (String × String))
    (jsonDumps : List (String × String) → String)
    (conversationHistory : List Exchange) : String :=
  String.intercalate "\n"
    (_build_enhanced_prompt_parts systemPrompt userMessage menuItems context jsonDumps
      conversationHistory)

/-- The mutable state of `AIEventAssistant` relevant to `generate_response`:
`self.chat` (an opaque handle whose `send_message` either returns a reply or
raises, modelled as a function into `Except`) and `self.conversation_history`. -/
structure AIAssistantState where
  chat : Option (String → Except String String)
  conversationHistory : List Exchange

/-- `AIEventAssistant.generate_response` (ai_engine.py lines 68-101): with no chat
handle, return the fallback response; otherwise build the enhanced prompt and call
`send_message` - on success append the exchange to the conversation history and
return the reply, on an exception return the fallback response (the `try` block
ends before any history append happens on that path). -/
def generate_response (state : AIAssistantState) (userMessage : String)
    (menuItems : List MenuItem) (context : List (String × String))
    (jsonDumps : List (String × String) → String) (systemPrompt : String) :
    String × AIAssistantState :=
  match state.chat with
  | none => (_get_fallback_response userMessage, state)
  | some sendMessage =>
    let enhancedPrompt := _build_enhanced_prompt systemPrompt userMessage menuItems context
      jsonDumps state.conversationHistory
    match sendMessage enhancedPrompt with
    | Except.error _ => (_get_fallback_response userMessage, state)
    | Except.ok text =>
      (text,
       { state with
         conversationHistory := state.conversationHistory ++ [⟨userMessage, text⟩] })

/-- The `categories_covered` set (ai_engine.py line 254), kept as a duplicate-free
list so that its length is the set's cardinality. -/
def insertCategory (c : String) (cats : List String) : List String :=
  if cats.contains c then cats else cats ++ [c]

/-- The selection loop of `suggest_menu_items` (ai_engine.py lines 255-262): walk
the items in order; stop once `max_items` are accumulated; admit an item when fewer
than 3 distinct categories are covered or its category is not yet represented. -/
def selectLoop (maxItems : Nat) :
    List MenuItem → List MenuItem → List String → List MenuItem
  | [], suggestedItems, _ => suggestedItems
  | item :: rest, suggestedItems, categoriesCovered =>
    if maxItems ≤ suggestedItems.length then suggestedItems
    else if categoriesCovered.length < 3 ∨ ¬ item.category ∈ categoriesCovered then
      selectLoop maxItems rest (suggestedItems ++ [item])
        (insertCategory item.category categoriesCovered)
    else
      selectLoop maxItems rest suggestedItems categoriesCovered

/-- ai_engine.py lines 244-251: with truthy dietary preferences, keep items whose
diet-tag list intersects them, falling back to the whole catalog when the filtered
list is empty (`menu_items = filtered_items if filtered_items else menu_items`). -/
def suggestPool (menuItems : List MenuItem) (eventDetails : EventProfile) :
    List MenuItem :=
  if eventDetails.dietaryPreferences.isEmpty then menuItems
  else
    if (menuItems.filter (fun item => eventDetails.dietaryPreferences.any
        (fun pref => item.dietType.contains pref))).isEmpty then menuItems
    else menuItems.filter (fun item => eventDetails.dietaryPreferences.any
      (fun pref => item.dietType.contains pref))

/-- `AIEventAssistant.suggest_menu_items` (ai_engine.py lines 224-264): empty
catalog gives `[]`; otherwise run the category-diversity loop over the dietary
pool and truncate defensively to `max_items` (default 6). -/
def suggest_menu_items (menuItems : List MenuItem) (eventDetails : EventProfile)
    (maxItems : Nat := 6) : List MenuItem :=
  if menuItems.isEmpty then []
  else (selectLoop maxItems (suggestPool menuItems eventDetails) [] []).take maxItems

/-- `FirestoreManager._get_mock_menu_items`'s fixed demo data
(firebase_config.py lines 86-132). -/
def mockMenuItems : List MenuItem :=
  [{ id := "1", name := "Classic Caesar Salad", category := "Appetizers",
     ingredients := ["romaine lettuce", "parmesan", "croutons", "caesar dressing"],
     dietType := ["vegetarian"], price := "12.99",
     imageURL := "https://example.com/caesar.jpg" },
   { id := "2", name := "Grilled Salmon", category := "Main Course",
     ingredients := ["atlantic salmon", "lemon", "herbs", "vegetables"],
     dietType := ["gluten-free"], price := "24.99",
     imageURL := "https://example.com/salmon.jpg" },
   { id := "3", name := "Quinoa Buddha Bowl", category := "Main Course",
     ingredients := ["quinoa", "avocado", "chickpeas", "kale", "tahini"],
     dietType := ["vegan", "gluten-free"], price := "16.99",
     imageURL := "https://example.com/buddha-bowl.jpg" },
   { id := "4", name := "Chocolate Lava Cake", category := "Desserts",
     ingredients := ["dark chocolate", "butter", "eggs", "flour", "vanilla"],
     dietType := ["vegetarian"], price := "8.99",
     imageURL := "https://example.com/lava-cake.jpg" },
   { id := "5", name := "Vegan Mushroom Risotto", category := "Main Course",
     ingredients := ["arborio rice", "mushrooms", "nutritional yeast", "vegetable broth"],
     dietType := ["vegan", "gluten-free"], price := "18.99",
     imageURL := "https://example.com/risotto.jpg" }]

/-- `FirestoreManager._get_mock_menu_items` (firebase_config.py lines 84-141):
with a truthy `diet_filters` list, keep only demo items whose `dietType` meets one
of the filters; with `None` or an empty list, return all five demo items. -/
def _get_mock_menu_items (dietFilters : Option (List String)) : List MenuItem :=
  match dietFilters with
  | none => mockMenuItems
  | some filters =>
    if filters.isEmpty then mockMenuItems
    else mockMenuItems.filter (fun item => filters.any (fun d => item.dietType.contains d))

/-- `FirestoreManager.get_menu_items` (firebase_config.py lines 49-82): `db` is
`self._db`, with a reachable store abstracted as its query function; when `_db is
None` (the store is unreachable) the mock data - filtered by `diet_filters` - is
returned. -/
def get_menu_items (db : Option (Option (List String) → List MenuItem))
    (dietFilters : Option (List String)) : List MenuItem :=
  match db with
  | none => _get_mock_menu_items dietFilters
  | some query => query dietFilters

/-- The live event profile held in `st.session_state.current_event_details` after
the chat messages `messages` (user and assistant turns alike, in order) have been
processed (app.py lines 157-187): each send joins every stored chat message with
spaces, re-extracts, and `dict.update`s the result in; since
`extract_event_details` always returns every key, the update replaces every field,
so the live profile is exactly the extraction of the joined history. -/
def currentEventDetails (messages : List String) : EventProfile :=
  extract_event_details (joinSpace messages)

example : get_menu_items none (some ["halal"]) = [] := by decide
example : (get_menu_items none none).length = 5 := by decide

/-! ### Helper lemmas about the text primitives -/

lemma prefixOf_append (l s r : List Char) (h : l.isPrefixOf s = true) :
    l.isPrefixOf (s ++ r) = true := by
  simp only [ List.isPrefixOf_iff_prefix] at h ⊢
  exact h.trans (List.prefix_append s r)

lemma prefixOf_ne_nil (l s : List Char) (h : l.isPrefixOf s = true) (hl : l ≠ []) :
    s ≠ [] := by
  simp only [ List.isPrefixOf_iff_prefix] at h
  obtain ⟨t, ht⟩ := h
  cases l with
  | nil => exact absurd rfl hl
  | cons c cs => exact ht ▸ List.cons_ne_nil c (cs ++ t)

lemma prefixOf_iff_exists (l s : List Char) :
    l.isPrefixOf s = true ↔ ∃ t, s = l ++ t := by
  simp only [ List.isPrefixOf_iff_prefix]
  constructor
  · rintro ⟨t, ht⟩
    exact ⟨t, ht.symm⟩
  · rintro ⟨t, ht⟩
    exact ⟨t, ht.symm⟩

lemma prefixOf_comparable (a b s : List Char) (ha : a.isPrefixOf s = true)
    (hb : b.isPrefixOf s = true) : a.isPrefixOf b = true ∨ b.isPrefixOf a = true := by
  simp only [ List.isPrefixOf_iff_prefix] at ha hb ⊢
  exact List.prefix_or_prefix_of_prefix ha hb

lemma containsSub_nil_sub (t : List Char) : containsSub t [] = true := by
  induction t with
  | nil => simp [containsSub, List.isPrefixOf]
  | cons c rest ih => simp [containsSub, List.isPrefixOf]

lemma containsSub_of_prefixOf (t sub : List Char) (h : sub.isPrefixOf t = true) :
    containsSub t sub = true := by
  cases t with
  | nil => simpa [containsSub] using h
  | cons c rest => simp [containsSub, h]

lemma containsSub_mono (t r sub : List Char) (h : containsSub t sub = true) :
    containsSub (t ++ r) sub = true := by
  induction t with
  | nil =>
    simp [containsSub] at h
    cases sub with
    | nil => simpa using containsSub_nil_sub r
    | cons c cs => simp [List.isPrefixOf] at h
  | cons c rest ih =>
    simp [containsSub] at h ⊢
    rcases h with h | h
    · exact Or.inl (h.trans (List.prefix_append (c :: rest) r))
    · exact Or.inr (ih h)

lemma takeWhile_append_left (p : Char → Bool) (s r : List Char) (h : s.dropWhile p ≠ []) :
    (s ++ r).takeWhile p = s.takeWhile p := by
  induction s with
  | nil => simp [List.dropWhile] at h
  | cons c t ih =>
    by_cases hc : p c
    · simp only [List.dropWhile_cons, hc, if_true] at h
      simp [List.takeWhile_cons, hc, ih h]
    · simp [List.takeWhile_cons, hc]

lemma dropWhile_append_left (p : Char → Bool) (s r : List Char) (h : s.dropWhile p ≠ []) :
    (s ++ r).dropWhile p = s.dropWhile p ++ r := by
  induction s with
  | nil => simp [List.dropWhile] at h
  | cons c t ih =>
    by_cases hc : p c
    · simp only [List.dropWhile_cons, hc, if_true] at h
      simp [List.dropWhile_cons, hc, ih h]
    · simp [List.dropWhile_cons, hc]

lemma takeWhile_all_append (p : Char → Bool) (s r : List Char) (h : s.dropWhile p = []) :
    (s ++ r).takeWhile p = s ++ r.takeWhile p := by
  induction s with
  | nil => simp
  | cons c t ih =>
    by_cases hc : p c
    · simp only [List.dropWhile_cons, hc, if_true] at h
      simp [List.takeWhile_cons, hc, ih h]
    · simp [List.dropWhile_cons, hc] at h

lemma matchWordAfter_append (words : List (List Char)) (hw : ∀ w ∈ words, w ≠ [])
    (s r : List Char) (n : Nat) (h : matchWordAfter words s = some n) :
    matchWordAfter words (s ++ r) = some n := by
  by_cases hds : s.takeWhile Char.isDigit = []
  · simp [matchWordAfter, hds] at h
  · by_cases hany : words.any
        (fun w => w.isPrefixOf ((s.dropWhile Char.isDigit).dropWhile isSpaceChar)) = true
    · obtain ⟨w, hwmem, hwpre⟩ := List.any_eq_true.mp hany
      have hrest : (s.dropWhile Char.isDigit).dropWhile isSpaceChar ≠ [] :=
        prefixOf_ne_nil _ _ hwpre (hw w hwmem)
      have hdw : s.dropWhile Char.isDigit ≠ [] := by
        intro h0
        rw [h0] at hrest
        simp at hrest
      have e1 : (s ++ r).takeWhile Char.isDigit = s.takeWhile Char.isDigit :=
        takeWhile_append_left _ _ _ hdw
      have e3 : ((s ++ r).dropWhile Char.isDigit).dropWhile isSpaceChar =
          (s.dropWhile Char.isDigit).dropWhile isSpaceChar ++ r := by
        rw [dropWhile_append_left _ _ _ hdw]
        exact dropWhile_append_left _ _ _ hrest
      have hany2 : words.any
          (fun w => w.isPrefixOf (((s ++ r).dropWhile Char.isDigit).dropWhile isSpaceChar))
          = true := by
        rw [e3]
        exact List.any_eq_true.mpr ⟨w, hwmem, prefixOf_append _ _ _ hwpre⟩
      simp only [matchWordAfter, hds, hany, if_true, if_false, ite_false, ite_true] at h
      simp only [matchWordAfter, e1, hds, hany2, if_true, if_false, ite_false, ite_true]
      exact h
    · simp [matchWordAfter, hds, hany] at h

lemma find?_prefixOf_append (kws : List (List Char))
    (hkw : ∀ k1 ∈ kws, ∀ k2 ∈ kws, k1.isPrefixOf k2 = true → k1 = k2)
    (s r kw : List Char) (h : kws.find? (fun k => k.isPrefixOf s) = some kw) :
    kws.find? (fun k => k.isPrefixOf (s ++ r)) = some kw := by
  induction kws with
  | nil => simp [List.find?] at h
  | cons k rest ih =>
    cases hp : k.isPrefixOf s with
    | true =>
      have h1 : List.find? (fun k1 => k1.isPrefixOf s) (k :: rest) = some k := by
        simp [List.find?, hp]
      rw [h1] at h
      injection h with hk
      subst hk
      simp [List.find?, prefixOf_append _ _ _ hp]
    | false =>
      have h1 : List.find? (fun k1 => k1.isPrefixOf s) (k :: rest)
          = List.find? (fun k1 => k1.isPrefixOf s) rest := by
        simp [List.find?, hp]
      rw [h1] at h
      cases hq : k.isPrefixOf (s ++ r) with
      | false =>
        have h2 : List.find? (fun k1 => k1.isPrefixOf (s ++ r)) (k :: rest)
            = List.find? (fun k1 => k1.isPrefixOf (s ++ r)) rest := by
          simp [List.find?, hq]
        rw [h2]
        exact ih (fun a ha b hb => hkw a (List.mem_cons_of_mem k ha)
          b (List.mem_cons_of_mem k hb)) h
      | true =>
        exfalso
        have hkwpre : kw.isPrefixOf s = true := by
          have h3 := List.find?_some h
          simpa using h3
        have hkwmem : kw ∈ rest := List.mem_of_find?_eq_some h
        have hkp2 : kw.isPrefixOf (s ++ r) = true := prefixOf_append _ _ _ hkwpre
        rcases prefixOf_comparable k kw (s ++ r) hq hkp2 with hc | hc
        · have hk : k = kw := hkw k (List.mem_cons_self k rest) kw
            (List.mem_cons_of_mem k hkwmem) hc
          rw [hk, hkwpre] at hp
          exact absurd hp (by simp)
        · have hk : kw = k := hkw kw (List.mem_cons_of_mem k hkwmem) k
            (List.mem_cons_self k rest) hc
          rw [← hk, hkwpre] at hp
          exact absurd hp (by simp)

lemma matchNumAfterKw_append (kws : List (List Char))
    (hkw : ∀ k1 ∈ kws, ∀ k2 ∈ kws, k1.isPrefixOf k2 = true → k1 = k2)
    (s r : List Char) (n : Nat) (h : matchNumAfterKw kws s = some n) :
    ∃ m, matchNumAfterKw kws (s ++ r) = some m := by
  cases hf : kws.find? (fun k => k.isPrefixOf s) with
  | none => simp [matchNumAfterKw, hf] at h
  | some kw =>
    have hf2 := find?_prefixOf_append kws hkw s r kw hf
    by_cases hds : ((s.drop kw.length).dropWhile isSpaceChar).takeWhile Char.isDigit = []
    · simp [matchNumAfterKw, hf, hds] at h
    · have hkpre : kw.isPrefixOf s = true := by
        have h3 := List.find?_some hf
        simpa using h3
      obtain ⟨tail, htail⟩ := (prefixOf_iff_exists kw s).mp hkpre
      have hdropS : s.drop kw.length = tail := by
        rw [htail]
        exact List.drop_left kw tail
      have hdropSR : (s ++ r).drop kw.length = tail ++ r := by
        rw [htail, List.append_assoc]
        exact List.drop_left kw (tail ++ r)
      rw [hdropS] at hds
      have hX : tail.dropWhile isSpaceChar ≠ [] := by
        intro h0
        rw [h0] at hds
        simp at hds
      have e3 : (tail ++ r).dropWhile isSpaceChar = tail.dropWhile isSpaceChar ++ r :=
        dropWhile_append_left _ _ _ hX
      have hds2 : ((tail ++ r).dropWhile isSpaceChar).takeWhile Char.isDigit ≠ [] := by
        rw [e3]
        by_cases hdd : (tail.dropWhile isSpaceChar).dropWhile Char.isDigit = []
        · rw [takeWhile_all_append _ _ _ hdd]
          intro hcontra
          exact hX (List.append_eq_nil.mp hcontra).1
        · rw [takeWhile_append_left _ _ _ hdd]
          exact hds
      have hcond : (((s ++ r).drop kw.length).dropWhile isSpaceChar).takeWhile Char.isDigit
          ≠ [] := by
        rw [hdropSR]
        exact hds2
      refine ⟨digitsVal ((((s ++ r).drop kw.length).dropWhile isSpaceChar).takeWhile
        Char.isDigit), ?_⟩
      simp [matchNumAfterKw, hf2, hcond]

lemma reSearch_isSome_of_match (m : List Char → Option Nat) (t : List Char)
    (h : (m t).isSome = true) : (reSearch m t).isSome = true := by
  cases t with
  | nil => exact h
  | cons c rest =>
    cases hm : m (c :: rest) with
    | some v => simp [reSearch, hm]
    | none => rw [hm] at h; simp at h

lemma reSearch_append (m : List Char → Option Nat)
    (hm : ∀ s r, (m s).isSome = true → (m (s ++ r)).isSome = true)
    (t r : List Char) (h : (reSearch m t).isSome = true) :
    (reSearch m (t ++ r)).isSome = true := by
  induction t with
  | nil =>
    have h2 := hm [] r h
    exact reSearch_isSome_of_match m r (by simpa using h2)
  | cons c rest ih =>
    cases hm0 : m (c :: rest) with
    | some v =>
      exact reSearch_isSome_of_match m ((c :: rest) ++ r)
        (hm (c :: rest) r (by simp [hm0]))
    | none =>
      have h1 : (reSearch m rest).isSome = true := by
        simpa [reSearch, hm0] using h
      have h2 := ih h1
      cases hm1 : m (c :: (rest ++ r)) with
      | some v => simp [reSearch, hm1]
      | none => simpa [reSearch, hm1] using h2

lemma matchPeople_mono (s r : List Char) (h : (matchPeople s).isSome = true) :
    (matchPeople (s ++ r)).isSome = true := by
  rw [Option.isSome_iff_exists] at h
  obtain ⟨n, hn⟩ := h
  have h2 := matchWordAfter_append _ (by decide) s r n hn
  simp [matchPeople, h2]

lemma matchPax_mono (s r : List Char) (h : (matchPax s).isSome = true) :
    (matchPax (s ++ r)).isSome = true := by
  rw [Option.isSome_iff_exists] at h
  obtain ⟨n, hn⟩ := h
  have h2 := matchWordAfter_append _ (by decide) s r n hn
  simp [matchPax, h2]

lemma matchForAroundAbout_mono (s r : List Char)
    (h : (matchForAroundAbout s).isSome = true) :
    (matchForAroundAbout (s ++ r)).isSome = true := by
  rw [Option.isSome_iff_exists] at h
  obtain ⟨n, hn⟩ := h
  obtain ⟨k, hk⟩ := matchNumAfterKw_append _ (by decide) s r n hn
  simp [matchForAroundAbout, hk]

lemma extractGuestCount_append (tl ext : List Char)
    (h : (extractGuestCount tl).isSome = true) :
    (extractGuestCount (tl ++ ext)).isSome = true := by
  unfold extractGuestCount at h ⊢
  cases h1 : reSearch matchPeople tl with
  | some n =>
    have h2 := reSearch_append matchPeople matchPeople_mono tl ext (by simp [h1])
    rw [Option.isSome_iff_exists] at h2
    obtain ⟨k, hk⟩ := h2
    simp [hk]
  | none =>
    rw [h1] at h
    cases h2 : reSearch matchForAroundAbout tl with
    | some n =>
      cases h1e : reSearch matchPeople (tl ++ ext) with
      | some k => simp [h1e]
      | none =>
        have h3 := reSearch_append matchForAroundAbout matchForAroundAbout_mono tl ext
          (by simp [h2])
        rw [Option.isSome_iff_exists] at h3
        obtain ⟨k, hk⟩ := h3
        simp [h1e, hk]
    | none =>
      rw [h2] at h
      have h3 := reSearch_append matchPax matchPax_mono tl ext h
      cases h1e : reSearch matchPeople (tl ++ ext) with
      | some k => simp [h1e]
      | none =>
        cases h2e : reSearch matchForAroundAbout (tl ++ ext) with
        | some k => simp [h1e, h2e]
        | none => simpa [h1e, h2e] using h3

lemma find?_isSome_mono {α : Type} (l : List α) (p q : α → Bool)
    (hpq : ∀ x ∈ l, p x = true → q x = true)
    (h : (l.find? p).isSome = true) : (l.find? q).isSome = true := by
  induction l with
  | nil => simp [List.find?] at h
  | cons a t ih =>
    cases hp : p a with
    | true =>
      have hqa := hpq a (List.mem_cons_self a t) hp
      simp [List.find?, hqa]
    | false =>
      have h1 : List.find? p (a :: t) = List.find? p t := by simp [List.find?, hp]
      rw [h1] at h
      cases hq : q a with
      | true => simp [List.find?, hq]
      | false =>
        have h2 : List.find? q (a :: t) = List.find? q t := by simp [List.find?, hq]
        rw [h2]
        exact ih (fun x hx hpx => hpq x (List.mem_cons_of_mem a hx) hpx) h

lemma find?_first {α : Type} (p : α → Bool) (l : List α) (a : α)
    (h : l.find? p = some a) :
    ∃ l₁ l₂, l = l₁ ++ a :: l₂ ∧ (∀ x ∈ l₁, p x = false) ∧ p a = true := by
  induction l with
  | nil => simp [List.find?] at h
  | cons b t ih =>
    cases hb : p b with
    | true =>
      have h1 : List.find? p (b :: t) = some b := by simp [List.find?, hb]
      rw [h1] at h
      injection h with hba
      subst hba
      exact ⟨[], t, rfl, by simp, hb⟩
    | false =>
      have h1 : List.find? p (b :: t) = List.find? p t := by simp [List.find?, hb]
      rw [h1] at h
      obtain ⟨l₁, l₂, rfl, hall, hpa⟩ := ih h
      refine ⟨b :: l₁, l₂, rfl, ?_, hpa⟩
      intro x hx
      rcases List.mem_cons.mp hx with rfl | hx2
      · exact hb
      · exact hall x hx2

/-! ### Profile monotonicity along the growing conversation -/

/-- A later profile keeps everything the earlier one had: a scalar field once set
stays set, and every collected dietary tag stays collected. -/
def ProfileStep (p q : EventProfile) : Prop :=
  (p.eventType.isSome = true → q.eventType.isSome = true) ∧
  (p.guestCount.isSome = true → q.guestCount.isSome = true) ∧
  (p.theme.isSome = true → q.theme.isSome = true) ∧
  (∀ d ∈ p.dietaryPreferences, d ∈ q.dietaryPreferences)

lemma textLowerOf_append (s r : String) :
    textLowerOf (s ++ r) = textLowerOf s ++ textLowerOf r := by
  cases s with
  | mk ds =>
    cases r with
    | mk dr =>
      have hd : (String.mk ds ++ String.mk dr) = String.mk (ds ++ dr) := rfl
      simp [textLowerOf, hd]

lemma extract_mono (s r : String) :
    ProfileStep (extract_event_details s) (extract_event_details (s ++ r)) := by
  refine ⟨?_, ?_, ?_, ?_⟩
  · intro h
    show (extractEventType (textLowerOf (s ++ r))).isSome = true
    rw [textLowerOf_append]
    exact find?_isSome_mono _ _ _
      (fun x _ hx => containsSub_mono _ _ _ hx) h
  · intro h
    show (extractGuestCount (textLowerOf (s ++ r))).isSome = true
    rw [textLowerOf_append]
    exact extractGuestCount_append _ _ h
  · intro h
    show (extractTheme (textLowerOf (s ++ r))).isSome = true
    rw [textLowerOf_append]
    exact find?_isSome_mono _ _ _
      (fun x _ hx => containsSub_mono _ _ _ hx) h
  · intro d hd
    have hd2 : d ∈ extractDietaryPreferences (textLowerOf s) := hd
    show d ∈ extractDietaryPreferences (textLowerOf (s ++ r))
    rw [textLowerOf_append]
    unfold extractDietaryPreferences at hd2 ⊢
    rw [List.mem_map] at hd2 ⊢
    obtain ⟨pair, hpair, rfl⟩ := hd2
    rw [List.mem_filter] at hpair
    refine ⟨pair, ?_, rfl⟩
    rw [List.mem_filter]
    refine ⟨hpair.1, ?_⟩
    obtain ⟨kw, hkwmem, hkwtrue⟩ := List.any_eq_true.mp hpair.2
    exact List.any_eq_true.mpr ⟨kw, hkwmem, containsSub_mono _ _ _ hkwtrue⟩

lemma profileStep_refl (p : EventProfile) : ProfileStep p p :=
  ⟨fun h => h, fun h => h, fun h => h, fun _ hd => hd⟩

lemma joinSpace_append (a b : List String) (ha : a ≠ []) (hb : b ≠ []) :
    joinSpace (a ++ b) = joinSpace a ++ " " ++ joinSpace b := by
  induction a with
  | nil => exact absurd rfl ha
  | cons m ms ih =>
    cases ms with
    | nil =>
      cases b with
      | nil => exact absurd rfl hb
      | cons b0 bs => simp [joinSpace]
    | cons m2 ms2 =>
      have h1 : joinSpace ((m :: m2 :: ms2) ++ b) = m ++ " " ++ joinSpace ((m2 :: ms2) ++ b) := by
        cases b with
        | nil => exact absurd rfl hb
        | cons b0 bs => simp [joinSpace]
      rw [h1, ih (List.cons_ne_nil m2 ms2)]
      simp [joinSpace, String.append_assoc]

/-! ### Lemmas about the menu-selection loop -/

lemma selectLoop_subset (maxItems : Nat) (items : List MenuItem) (sugg : List MenuItem)
    (cats : List String) (x : MenuItem) (hx : x ∈ selectLoop maxItems items sugg cats) :
    x ∈ sugg ∨ x ∈ items := by
  induction items generalizing sugg cats with
  | nil =>
    rw [selectLoop] at hx
    exact Or.inl hx
  | cons item rest ih =>
    rw [selectLoop] at hx
    split_ifs at hx with hlen hcat
    · exact Or.inl hx
    · rcases ih _ _ hx with hs | hr
      · rcases List.mem_append.mp hs with hs2 | hs2
        · exact Or.inl hs2
        · exact Or.inr (List.mem_cons.mpr (Or.inl (List.mem_singleton.mp hs2)))
      · exact Or.inr (List.mem_cons_of_mem item hr)
    · rcases ih _ _ hx with hs | hr
      · exact Or.inl hs
      · exact Or.inr (List.mem_cons_of_mem item hr)

lemma selectLoop_extends (maxItems : Nat) (items : List MenuItem) (sugg : List MenuItem)
    (cats : List String) : sugg <+: selectLoop maxItems items sugg cats := by
  induction items generalizing sugg cats with
  | nil =>
    rw [selectLoop]
  | cons item rest ih =>
    rw [selectLoop]
    split_ifs with hlen hcat
    · exact List.prefix_refl sugg
    · exact (List.prefix_append sugg [item]).trans (ih _ _)
    · exact ih _ _

/-! ### Lemmas about prompt composition -/

lemma strTake_strTake (s : String) (n : Nat) : strTake (strTake s n) n = strTake s n := by
  simp [strTake, List.take_take]

lemma flatMap_map_eq {α β γ : Type} (f : α → β) (g : β → List γ) (l : List α) :
    (l.map f).flatMap g = l.flatMap (fun x => g (f x)) := by
  induction l with
  | nil => rfl
  | cons a t ih => simp [ih]

/-- C6: for every catalog, context, history and message, the composed prompt only
uses the first 10 catalog items, only the 3 most recent exchanges, only the first
200 characters of each quoted assistant reply, and carries the serialized context
exactly when the context is non-empty (when it is empty the prompt does not depend
on the serializer at all). -/
theorem prompt_composition_truncation (systemPrompt userMessage : String)
    (menuItems : List MenuItem) (context : List (String × String))
    (jsonDumps jsonDumps2 : List (String × String) → String)
    (conversationHistory : List Exchange) :
    _build_enhanced_prompt systemPrompt userMessage menuItems context jsonDumps
        conversationHistory =
      _build_enhanced_prompt systemPrompt userMessage (menuItems.take 10) context jsonDumps
        conversationHistory ∧
    _build_enhanced_prompt systemPrompt userMessage menuItems context jsonDumps
        conversationHistory =
      _build_enhanced_prompt systemPrompt userMessage menuItems context jsonDumps
        (conversationHistory.drop (conversationHistory.length - 3)) ∧
    _build_enhanced_prompt systemPrompt userMessage menuItems context jsonDumps
        conversationHistory =
      _build_enhanced_prompt systemPrompt userMessage menuItems context jsonDumps
        (conversationHistory.map (fun e => ⟨e.user, strTake e.assistant 200⟩)) ∧
    (context = [] →
      _build_enhanced_prompt systemPrompt userMessage menuItems context jsonDumps
          conversationHistory =
        _build_enhanced_prompt systemPrompt userMessage menuItems context jsonDumps2
          conversationHistory) ∧
    (context ≠ [] →
      ("\nCONTEXT: " ++ jsonDumps context) ∈
        _build_enhanced_prompt_parts systemPrompt userMessage menuItems context jsonDumps
          conversationHistory) := by
  refine ⟨?_, ?_, ?_, ?_, ?_⟩
  · apply congrArg (String.intercalate "\n")
    cases menuItems with
    | nil => rfl
    | cons i t =>
      unfold _build_enhanced_prompt_parts
      simp [List.take_take]
  · apply congrArg (String.intercalate "\n")
    cases conversationHistory with
    | nil => rfl
    | cons e t =>
      unfold _build_enhanced_prompt_parts
      have hne : (e :: t).drop ((e :: t).length - 3) ≠ [] := by
        intro h0
        have hlen := congrArg List.length h0
        simp [List.length_drop] at hlen
        omega
      have hidem : ((e :: t).drop ((e :: t).length - 3)).drop
          (((e :: t).drop ((e :: t).length - 3)).length - 3) =
          (e :: t).drop ((e :: t).length - 3) := by
        rw [List.length_drop]
        have h0 : (e :: t).length - ((e :: t).length - 3) - 3 = 0 := by omega
        rw [h0, List.drop_zero]
      have hemp : ((e :: t).drop ((e :: t).length - 3)).isEmpty = false := by
        cases hdd : (e :: t).drop ((e :: t).length - 3) with
        | nil => exact absurd hdd hne
        | cons a b => simp
      simp only [List.isEmpty_cons, hemp, hidem, Bool.false_eq_true, if_false]
  · apply congrArg (String.intercalate "\n")
    cases conversationHistory with
    | nil => rfl
    | cons e t =>
      unfold _build_enhanced_prompt_parts
      have hlen : ((e :: t).map (fun x => (⟨x.user, strTake x.assistant 200⟩ : Exchange))).length
          = (e :: t).length := List.length_map _ _
      have hdropmap : ((e :: t).map (fun x => (⟨x.user, strTake x.assistant 200⟩ : Exchange))).drop
          ((e :: t).length - 3)
          = ((e :: t).drop ((e :: t).length - 3)).map
            (fun x => (⟨x.user, strTake x.assistant 200⟩ : Exchange)) :=
        (List.map_drop _ _ _).symm
      rw [hlen, hdropmap, flatMap_map_eq]
      simp [strTake_strTake]
  · intro hctx
    subst hctx
    rfl
  · intro hctx
    have hemp : context.isEmpty = false := by
      cases context with
      | nil => exact absurd rfl hctx
      | cons a b => simp
    unfold _build_enhanced_prompt_parts
    simp [hemp]

/-- Witness for C6: with an empty context the composed prompt is independent of the
serializer, checked at concrete arguments. -/
theorem prompt_composition_truncation_witness :
    _build_enhanced_prompt "sys" "msg" [] []
        (fun _ => "J") [⟨"u", "a"⟩] =
      _build_enhanced_prompt "sys" "msg" [] []
        (fun _ => "K") [⟨"u", "a"⟩] :=
  (prompt_composition_truncation "sys" "msg" [] [] (fun _ => "J") (fun _ => "K")
    [⟨"u", "a"⟩]).2.2.2.1 rfl

/-! ### Claim theorems -/

/-- C1 counterexample: on the input "for 20, about 15 people" the extractor yields
guest count 15, not the 20 the claim asserts: the `<N> people` pattern is the first
pattern in the code's priority list and it matches "15 people". -/
theorem guest_count_for20_about15_not_twenty :
    (extract_event_details "for 20, about 15 people").guestCount = some 15 ∧
    (extract_event_details "for 20, about 15 people").guestCount ≠ some 20 := by
  decide

/-- C1 amended: on "for 20, about 15 people" the guest count is 15: the
`<N> people/guests/persons` pattern is listed first, it matches "15 people", and so
the `for|around|about <N>` pattern - which alone would have produced 20 - is never
consulted. -/
theorem guest_count_for20_about15_is_fifteen :
    (extract_event_details "for 20, about 15 people").guestCount = some 15 ∧
    reSearch matchPeople (textLowerOf "for 20, about 15 people") = some 15 ∧
    reSearch matchForAroundAbout (textLowerOf "for 20, about 15 people") = some 20 := by
  decide

/-- C2: along any chat session, the live event profile never shrinks: for every
already-processed message list and any further messages, a scalar field
(event type, guest count, theme) that was set stays set, and every collected
dietary tag stays collected. -/
theorem profile_never_shrinks (messages newMessages : List String) :
    ProfileStep (currentEventDetails messages)
      (currentEventDetails (messages ++ newMessages)) := by
  cases newMessages with
  | nil =>
    rw [List.append_nil]
    exact profileStep_refl _
  | cons m ms =>
    cases messages with
    | nil =>
      have h0 : currentEventDetails [] = ⟨none, none, none, [], [], none, none⟩ := by decide
      rw [h0]
      exact ⟨by simp, by simp, by simp, by simp⟩
    | cons m0 ms0 =>
      unfold currentEventDetails
      rw [joinSpace_append (m0 :: ms0) (m :: ms) (List.cons_ne_nil _ _) (List.cons_ne_nil _ _)]
      rw [String.append_assoc]
      exact extract_mono _ _

/-- Witness for C2: a guest count extracted from the first message is still present
after a later message arrives. -/
theorem profile_never_shrinks_witness :
    ((currentEventDetails ["dinner for 12 vegan guests", "make it retro"]).guestCount).isSome
      = true :=
  (profile_never_shrinks ["dinner for 12 vegan guests"] ["make it retro"]).2.1 (by decide)

/-- C3 counterexample: with no chat handle configured, `generate_response` returns
the greeting fallback but appends nothing to the conversation history - the claimed
Exchange `("hello", reply)` is not recorded. -/
theorem generate_response_failure_records_no_exchange :
    (generate_response ⟨none, []⟩ "hello" [] [] (fun _ => "") "sys").1 = fallback_greeting ∧
    (generate_response ⟨none, []⟩ "hello" [] [] (fun _ => "") "sys").2.conversationHistory
      = [] ∧
    (generate_response ⟨none, []⟩ "hello" [] [] (fun _ => "") "sys").2.conversationHistory
      ≠ [⟨"hello", fallback_greeting⟩] := by
  refine ⟨by decide, rfl, by decide⟩

/-- C3 amended: on either failure path (no chat handle, or the provider call
raising) `generate_response` returns the keyword-selected fallback response and
leaves the conversation history unchanged; only a successful call appends the
Exchange of the user message and the reply. -/
theorem generate_response_fallback_and_history (state : AIAssistantState)
    (userMessage : String) (menuItems : List MenuItem) (context : List (String × String))
    (jsonDumps : List (String × String) → String) (systemPrompt : String) :
    (state.chat = none →
      generate_response state userMessage menuItems context jsonDumps systemPrompt
        = (_get_fallback_response userMessage, state)) ∧
    (∀ sendMessage err, state.chat = some sendMessage →
      sendMessage (_build_enhanced_prompt systemPrompt userMessage menuItems context
        jsonDumps state.conversationHistory) = Except.error err →
      generate_response state userMessage menuItems context jsonDumps systemPrompt
        = (_get_fallback_response userMessage, state)) ∧
    (∀ sendMessage text, state.chat = some sendMessage →
      sendMessage (_build_enhanced_prompt systemPrompt userMessage menuItems context
        jsonDumps state.conversationHistory) = Except.ok text →
      generate_response state userMessage menuItems context jsonDumps systemPrompt
        = (text, { state with conversationHistory :=
            state.conversationHistory ++ [⟨userMessage, text⟩] })) := by
  refine ⟨?_, ?_, ?_⟩
  · intro h
    simp [generate_response, h]
  · intro sendMessage err h1 h2
    simp [generate_response, h1, h2]
  · intro sendMessage text h1 h2
    simp [generate_response, h1, h2]

/-- Witness for C3 amended: the no-chat-handle path at concrete arguments. -/
theorem generate_response_fallback_and_history_witness :
    generate_response ⟨none, []⟩ "hello" [] [] (fun _ => "") "sys"
      = (_get_fallback_response "hello", ⟨none, []⟩) :=
  (generate_response_fallback_and_history ⟨none, []⟩ "hello" [] [] (fun _ => "") "sys").1 rfl

/-- C4: on a catalog whose items fall in categories A, A, B, C, A, D (in that
order) with `maxItems = 4` and no dietary filtering, the selector returns exactly
the first four items: the second A-item is admitted while fewer than 3 categories
are covered, and the second-round A-item is excluded. -/
theorem menu_selector_category_diversity_example
    (a1 a2 b1 c1 a3 d1 : MenuItem) (prof : EventProfile)
    (hprof : prof.dietaryPreferences = [])
    (h1 : a1.category = "A") (h2 : a2.category = "A") (h3 : b1.category = "B")
    (h4 : c1.category = "C") (h5 : a3.category = "A") (h6 : d1.category = "D") :
    suggest_menu_items [a1, a2, b1, c1, a3, d1] prof 4 = [a1, a2, b1, c1] := by
  simp [suggest_menu_items, suggestPool, hprof, selectLoop, insertCategory,
    h1, h2, h3, h4, h5, h6]

/-- Witness for C4: the selection at concrete menu items. -/
theorem menu_selector_category_diversity_example_witness :
    suggest_menu_items
      [⟨"1", "A1", "A", [], [], "1", ""⟩, ⟨"2", "A2", "A", [], [], "1", ""⟩,
       ⟨"3", "B1", "B", [], [], "1", ""⟩, ⟨"4", "C1", "C", [], [], "1", ""⟩,
       ⟨"5", "A3", "A", [], [], "1", ""⟩, ⟨"6", "D1", "D", [], [], "1", ""⟩]
      ⟨none, none, none, [], [], none, none⟩ 4
      = [⟨"1", "A1", "A", [], [], "1", ""⟩, ⟨"2", "A2", "A", [], [], "1", ""⟩,
         ⟨"3", "B1", "B", [], [], "1", ""⟩, ⟨"4", "C1", "C", [], [], "1", ""⟩] :=
  menu_selector_category_diversity_example
    ⟨"1", "A1", "A", [], [], "1", ""⟩ ⟨"2", "A2", "A", [], [], "1", ""⟩
    ⟨"3", "B1", "B", [], [], "1", ""⟩ ⟨"4", "C1", "C", [], [], "1", ""⟩
    ⟨"5", "A3", "A", [], [], "1", ""⟩ ⟨"6", "D1", "D", [], [], "1", ""⟩
    ⟨none, none, none, [], [], none, none⟩ rfl rfl rfl rfl rfl rfl rfl

lemma suggestPool_subset (menuItems : List MenuItem) (ed : EventProfile)
    (x : MenuItem) (hx : x ∈ suggestPool menuItems ed) : x ∈ menuItems := by
  unfold suggestPool at hx
  split_ifs at hx
  · exact hx
  · exact hx
  · exact List.mem_of_mem_filter hx

lemma suggestPool_of_no_match (menuItems : List MenuItem) (ed : EventProfile)
    (h : ∀ item ∈ menuItems, ∀ pref ∈ ed.dietaryPreferences, pref ∉ item.dietType) :
    suggestPool menuItems ed = menuItems := by
  unfold suggestPool
  by_cases hp : ed.dietaryPreferences.isEmpty = true
  · simp [hp]
  · have hfil : menuItems.filter (fun item => ed.dietaryPreferences.any
        (fun pref => item.dietType.contains pref)) = [] := by
      rw [List.filter_eq_nil_iff]
      intro item hi hc
      obtain ⟨pref, hpm, hpc⟩ := List.any_eq_true.mp hc
      have hmem : pref ∈ item.dietType := by simpa using hpc
      exact h item hi pref hpm hmem
    rw [if_neg hp, hfil]
    simp

/-- C5: for every catalog, profile and bound, the selector returns at most
`maxItems` items, all drawn from the catalog; an empty catalog gives `[]`; and when
the dietary preferences match no item at all, the selector behaves as with no
dietary filter, in particular returning something whenever the catalog is
non-empty and the bound positive. -/
theorem menu_selector_bounds_and_fallback (menuItems : List MenuItem)
    (eventDetails : EventProfile) (maxItems : Nat) :
    (suggest_menu_items menuItems eventDetails maxItems).length ≤ maxItems ∧
    (∀ x ∈ suggest_menu_items menuItems eventDetails maxItems, x ∈ menuItems) ∧
    suggest_menu_items [] eventDetails maxItems = [] ∧
    ((∀ item ∈ menuItems, ∀ pref ∈ eventDetails.dietaryPreferences,
        pref ∉ item.dietType) →
      (suggest_menu_items menuItems eventDetails maxItems =
        suggest_menu_items menuItems
          { eventDetails with dietaryPreferences := [] } maxItems) ∧
      (menuItems ≠ [] → 0 < maxItems →
        suggest_menu_items menuItems eventDetails maxItems ≠ [])) := by
  refine ⟨?_, ?_, ?_, ?_⟩
  · by_cases hmi : menuItems.isEmpty = true
    · simp [suggest_menu_items, hmi]
    · unfold suggest_menu_items
      rw [if_neg hmi]
      exact List.length_take_le _ _
  · intro x hx
    by_cases hmi : menuItems.isEmpty = true
    · simp [suggest_menu_items, hmi] at hx
    · unfold suggest_menu_items at hx
      rw [if_neg hmi] at hx
      have hx2 : x ∈ selectLoop maxItems (suggestPool menuItems eventDetails) [] [] :=
        List.take_subset _ _ hx
      rcases selectLoop_subset _ _ _ _ _ hx2 with h0 | h0
      · simp at h0
      · exact suggestPool_subset _ _ _ h0
  · rfl
  · intro h
    have hpool : suggestPool menuItems eventDetails = menuItems :=
      suggestPool_of_no_match _ _ h
    have hpool2 : suggestPool menuItems
        { eventDetails with dietaryPreferences := [] } = menuItems := by
      unfold suggestPool
      simp
    constructor
    · unfold suggest_menu_items
      rw [hpool, hpool2]
    · intro hne hmax
      cases menuItems with
      | nil => exact absurd rfl hne
      | cons i t =>
        unfold suggest_menu_items
        rw [if_neg (by simp)]
        rw [hpool]
        have hstep : selectLoop maxItems (i :: t) [] []
            = selectLoop maxItems t [i] (insertCategory i.category []) := by
          rw [selectLoop]
          rw [if_neg (by simp; omega)]
          rw [if_pos (Or.inl (by simp))]
          simp
        obtain ⟨tail, htail⟩ :=
          selectLoop_extends maxItems t [i] (insertCategory i.category [])
        rw [hstep, ← htail]
        cases maxItems with
        | zero => omega
        | succ k =>
          simp [List.take_succ_cons]

/-- Witness for C5: with a dietary preference matching nothing in the demo
catalog, the selector still returns a non-empty suggestion list. -/
theorem menu_selector_bounds_and_fallback_witness :
    suggest_menu_items mockMenuItems ⟨none, none, none, ["paleo"], [], none, none⟩ 6 ≠ [] :=
  ((menu_selector_bounds_and_fallback mockMenuItems
      ⟨none, none, none, ["paleo"], [], none, none⟩ 6).2.2.2
    (by decide)).2 (by decide) (by decide)

/-- C7 counterexample: with the store unreachable, a diet filter that matches no
demo item (here `["halal"]`) makes `get_menu_items` return the empty list, not the
fixed 5-item demo catalog the claim asserts for any filter argument. -/
theorem get_menu_items_halal_filter_empty :
    get_menu_items none (some ["halal"]) = [] ∧
    mockMenuItems.length = 5 ∧
    get_menu_items none (some ["halal"]) ≠ mockMenuItems := by
  decide

/-- C7 amended: with the store unreachable, `get_menu_items` returns the demo
catalog filtered by the diet filters: every returned item is a demo item, a
missing or empty filter yields all 5 demo items, and a non-empty filter keeps
exactly the demo items whose diet tags meet it (possibly fewer than 5, even
none). -/
theorem get_menu_items_unreachable_demo_filtered (dietFilters : Option (List String)) :
    get_menu_items none dietFilters = _get_mock_menu_items dietFilters ∧
    (∀ x ∈ get_menu_items none dietFilters, x ∈ mockMenuItems) ∧
    get_menu_items none none = mockMenuItems ∧
    mockMenuItems.length = 5 ∧
    (∀ l, l ≠ [] → get_menu_items none (some l) =
      mockMenuItems.filter (fun item => l.any (fun d => item.dietType.contains d))) := by
  refine ⟨rfl, ?_, rfl, by decide, ?_⟩
  · intro x hx
    cases dietFilters with
    | none => exact hx
    | some l =>
      by_cases hl : l.isEmpty = true
      · simpa [get_menu_items, _get_mock_menu_items, hl] using hx
      · have hx2 : x ∈ mockMenuItems.filter
            (fun item => l.any (fun d => item.dietType.contains d)) := by
          simpa [get_menu_items, _get_mock_menu_items, hl] using hx
        exact List.mem_of_mem_filter hx2
  · intro l hl
    have hl2 : l.isEmpty = false := by
      cases l with
      | nil => exact absurd rfl hl
      | cons a t => simp
    simp [get_menu_items, _get_mock_menu_items, hl2]

/-- Witness for C7 amended: the vegan filter keeps exactly the vegan demo items. -/
theorem get_menu_items_unreachable_demo_filtered_witness :
    get_menu_items none (some ["vegan"]) =
      mockMenuItems.filter (fun item => ["vegan"].any (fun d => item.dietType.contains d)) :=
  (get_menu_items_unreachable_demo_filtered (some ["vegan"])).2.2.2.2 ["vegan"] (by decide)

/-- C10: fallback keyword matching is raw substring containment and the greeting
group is tested first, so any message containing "hi" anywhere in its lower-cased
text - even inside another word, and even alongside later-group keywords such as
"birthday" or "menu" - gets the greeting response. -/
theorem fallback_greeting_substring_hi (userMessage : String)
    (h : containsSub (textLowerOf userMessage) "hi".data = true) :
    _get_fallback_response userMessage = fallback_greeting := by
  have hc : (["hello", "hi", "start", "help"].any
      (fun w => containsSub (textLowerOf userMessage) w.data)) = true :=
    List.any_eq_true.mpr ⟨"hi", by simp, h⟩
  unfold _get_fallback_response
  rw [if_pos hc]

/-- Witness for C10: "This birthday menu" contains "hi" inside "This", so despite
the birthday and menu keywords it receives the greeting response. -/
theorem fallback_greeting_substring_hi_witness :
    _get_fallback_response "This birthday menu" = fallback_greeting :=
  fallback_greeting_substring_hi "This birthday menu" (by decide)

lemma extract_eventType_eq (s : String) :
    (extract_event_details s).eventType = extractEventType (textLowerOf s) := rfl

lemma extract_theme_eq (s : String) :
    (extract_event_details s).theme = extractTheme (textLowerOf s) := rfl

lemma extract_diet_eq (s : String) :
    (extract_event_details s).dietaryPreferences
      = extractDietaryPreferences (textLowerOf s) := rfl

/-- C8: extraction is total and vocabulary-bound: the event type and theme are
either unset - in which case no vocabulary term occurs in the lower-cased text -
or the first term of their fixed vocabulary (in list order) that occurs anywhere
in the text; the guest count, when set, is a non-negative integer; and the fields
the extractor never assigns stay empty (no placeholder values). -/
theorem extract_total_and_vocab (conversationText : String) :
    ((extract_event_details conversationText).eventType = none →
      ∀ v ∈ event_types, containsSub (textLowerOf conversationText) v.data = false) ∧
    (∀ v, (extract_event_details conversationText).eventType = some v →
      v ∈ event_types ∧ containsSub (textLowerOf conversationText) v.data = true ∧
      ∃ l₁ l₂, event_types = l₁ ++ v :: l₂ ∧
        ∀ w ∈ l₁, containsSub (textLowerOf conversationText) w.data = false) ∧
    ((extract_event_details conversationText).theme = none →
      ∀ v ∈ theme_keywords, containsSub (textLowerOf conversationText) v.data = false) ∧
    (∀ v, (extract_event_details conversationText).theme = some v →
      v ∈ theme_keywords ∧ containsSub (textLowerOf conversationText) v.data = true ∧
      ∃ l₁ l₂, theme_keywords = l₁ ++ v :: l₂ ∧
        ∀ w ∈ l₁, containsSub (textLowerOf conversationText) w.data = false) ∧
    (∀ n, (extract_event_details conversationText).guestCount = some n → 0 ≤ (n : Int)) ∧
    (extract_event_details conversationText).specialRequests = [] ∧
    (extract_event_details conversationText).budget = none ∧
    (extract_event_details conversationText).date = none := by
  refine ⟨?_, ?_, ?_, ?_, ?_, rfl, rfl, rfl⟩
  · intro h v hv
    rw [extract_eventType_eq] at h
    unfold extractEventType at h
    have h2 := List.find?_eq_none.mp h v hv
    simpa using h2
  · intro v h
    rw [extract_eventType_eq] at h
    unfold extractEventType at h
    refine ⟨List.mem_of_find?_eq_some h, ?_, ?_⟩
    · have h2 := List.find?_some h
      simpa using h2
    · obtain ⟨l₁, l₂, heq, hall, _⟩ := find?_first _ _ _ h
      exact ⟨l₁, l₂, heq, hall⟩
  · intro h v hv
    rw [extract_theme_eq] at h
    unfold extractTheme at h
    have h2 := List.find?_eq_none.mp h v hv
    simpa using h2
  · intro v h
    rw [extract_theme_eq] at h
    unfold extractTheme at h
    refine ⟨List.mem_of_find?_eq_some h, ?_, ?_⟩
    · have h2 := List.find?_some h
      simpa using h2
    · obtain ⟨l₁, l₂, heq, hall, _⟩ := find?_first _ _ _ h
      exact ⟨l₁, l₂, heq, hall⟩
  · intro n _
    omega

/-- Witness for C8: on "Wedding then a birthday" the extracted event type is
"birthday", a term of the vocabulary occurring in the lower-cased text (list
order, not text order, breaks the tie). -/
theorem extract_total_and_vocab_witness :
    "birthday" ∈ event_types ∧
    containsSub (textLowerOf "Wedding then a birthday") "birthday".data = true :=
  ⟨((extract_total_and_vocab "Wedding then a birthday").2.1 "birthday" (by decide)).1,
   ((extract_total_and_vocab "Wedding then a birthday").2.1 "birthday" (by decide)).2.1⟩

lemma mem_map_fst_filter {α β : Type} [DecidableEq α] (l : List (α × β))
    (q : α × β → Bool) (hnd : (l.map (fun p => p.1)).Nodup) (a : α) (b : β)
    (hab : (a, b) ∈ l) :
    (a ∈ (l.filter q).map (fun p => p.1) ↔ q (a, b) = true) := by
  induction l with
  | nil => simp at hab
  | cons p t ih =>
    rw [List.map_cons, List.nodup_cons] at hnd
    rcases List.mem_cons.mp hab with heq | hmem
    · subst heq
      cases hq : q (a, b) with
      | true => simp [List.filter_cons, hq]
      | false =>
        simp only [List.filter_cons, hq, if_false, Bool.false_eq_true]
        constructor
        · intro hc
          exfalso
          have hsub : List.Sublist ((t.filter q).map (fun p => p.1))
              (t.map (fun p => p.1)) :=
            List.Sublist.map _ (List.filter_sublist t)
          exact hnd.1 (hsub.subset hc)
        · intro hc
          exact absurd hc (by simp)
    · have hane : a ≠ p.1 := by
        intro he
        have hmm : a ∈ t.map (fun p => p.1) := List.mem_map.mpr ⟨(a, b), hmem, rfl⟩
        rw [he] at hmm
        exact hnd.1 hmm
      cases hq : q p with
      | true =>
        simp only [List.filter_cons, hq, if_true, List.map_cons]
        rw [List.mem_cons]
        constructor
        · intro hc
          rcases hc with hc | hc
          · exact absurd hc hane
          · exact (ih hnd.2 hmem).mp hc
        · intro hc
          exact Or.inr ((ih hnd.2 hmem).mpr hc)
      | false =>
        simp only [List.filter_cons, hq, if_false]
        exact ih hnd.2 hmem

/-- C9: dietary-preference extraction accumulates: a canonical tag is collected
iff one of its synonym keywords occurs in the lower-cased text, the collected
list is duplicate-free, and "vegan vegetarian" yields both tags. -/
theorem dietary_extraction_accumulates (conversationText : String) :
    (∀ tag kws, (tag, kws) ∈ dietary_keywords →
      (tag ∈ (extract_event_details conversationText).dietaryPreferences ↔
        kws.any (fun kw => containsSub (textLowerOf conversationText) kw.data) = true)) ∧
    ((extract_event_details conversationText).dietaryPreferences).Nodup ∧
    (extract_event_details "vegan vegetarian").dietaryPreferences
      = ["vegan", "vegetarian"] := by
  refine ⟨?_, ?_, by decide⟩
  · intro tag kws hmem
    rw [extract_diet_eq]
    unfold extractDietaryPreferences
    exact mem_map_fst_filter dietary_keywords _ (by decide) tag kws hmem
  · rw [extract_diet_eq]
    unfold extractDietaryPreferences
    have hsub : List.Sublist ((dietary_keywords.filter
        (fun p => p.2.any (fun kw =>
          containsSub (textLowerOf conversationText) kw.data))).map (fun p => p.1))
        (dietary_keywords.map (fun p => p.1)) :=
      List.Sublist.map _ (List.filter_sublist _)
    exact List.Nodup.sublist hsub (by decide)

/-- Witness for C9: the vegan tag is collected from "a vegan dinner". -/
theorem dietary_extraction_accumulates_witness :
    "vegan" ∈ (extract_event_details "a vegan dinner").dietaryPreferences :=
  ((dietary_extraction_accumulates "a vegan dinner").1 "vegan" ["vegan"]
    (by decide)).mpr (by decide)
